import Mathlib

/-!
Verification of the Resilient Request & Caching Engine
(whonix-vbox-mcp repository).

This file gives a shallow embedding, in Lean 4, of the components the
specification's testable claims are about:

* `src/enhanced_network_manager.py` — the Strategy Scorer
  (`EnhancedNetworkManager`): strategy records, the score/ordering
  computation, the EMA success-rate update, and the
  `make_resilient_request` loop;
* `src/multi_engine_search.py` — the `CircuitBreaker` state machine and
  the `MultiEngineSearch.search` coordinator loop;
* `src/persistent_cache.py` — the `PersistentCache` (TTL/LRU cache):
  `get` and `set` with stats, expiry, and LRU eviction;
* `src/browser_automation.py` — the cache-TTL choice made by
  `ConsolidatedBrowserAPI.stealth_request`.

Modelling conventions:

* Python floats (timestamps, rates, TTLs) are modelled as `ℚ`.
* `time.time()` is passed explicitly: each operation receives the
  instant(s) it observes as arguments.  Where a Python function reads
  the clock several times in one loop iteration, one instant per
  iteration is passed (the claims below do not distinguish sub-iteration
  instants).
* I/O performed by a strategy / search engine is abstracted into an
  oracle argument (`exec`, `runEngine`): a function from the
  strategy/engine name to the outcome of that attempt, where a raised
  Python exception is the `.error`/`.exn` constructor.
* Python dictionaries that preserve insertion order are modelled as
  association lists in insertion order.
* `json.dumps` / `json.loads` (Python standard library, external to the
  repository) are modelled by their outcome: an `Option String`
  argument for `dumps` (`none` = the value is unserializable and the
  call raises) and a `loads : String → Option String` argument
  (`none` = the stored text cannot be deserialized and the call raises).
* The MD5 key hash of `PersistentCache._make_key` is modelled as the
  identity on the hash input (collision-free, as intended by the code).
* Python string comparison (used by `list.sort` on `(score, name)`
  tuples) is lexicographic comparison of code points; `pyStrLt` models
  it directly.
-/

/-- Python string `<`: lexicographic on code points. -/
def pyCharsLt : List Char → List Char → Bool
  | [], [] => false
  | [], _ :: _ => true
  | _ :: _, [] => false
  | c :: cs, d :: ds =>
    if c.val < d.val then true
    else if d.val < c.val then false
    else pyCharsLt cs ds

/-- Python string comparison on two strings. -/
def pyStrLt (a b : String) : Bool := pyCharsLt a.data b.data

/-- Insert into a sorted list, keeping `x` before the first element `y`
with `le x y`.  Used to model Python's `list.sort` (the sorted output is
unique here because the comparison below is total and antisymmetric on
the lists being sorted). -/
def insSorted (le : α → α → Bool) (x : α) : List α → List α
  | [] => [x]
  | y :: ys => if le x y then x :: y :: ys else y :: insSorted le x ys

/-- Sort a list with comparator `le` (insertion sort). -/
def sortByB (le : α → α → Bool) : List α → List α
  | [] => []
  | x :: xs => insSorted le x (sortByB le xs)

/-- Pair every list element with its position, starting at `i`. -/
def withIdx {α : Type} : List α → ℕ → List (ℕ × α)
  | [], _ => []
  | x :: xs, i => (i, x) :: withIdx xs (i + 1)

/-! ## Strategy Scorer (`src/enhanced_network_manager.py`) -/

/-- Dataclass `RequestStrategy` (enhanced_network_manager.py, lines 16–21). -/
structure RequestStrategy where
  name : String
  success_rate : ℚ
  last_used : ℚ
  failures : ℕ
deriving Repr, DecidableEq

/-- The `self.strategies` dict built in `EnhancedNetworkManager.__init__`
(lines 25–30), in insertion order. -/
def initStrategies : List (String × RequestStrategy) :=
  [ ("tor_primary", ⟨"tor_primary", 1/2, 0, 0⟩)
  , ("tor_new_circuit", ⟨"tor_new_circuit", 7/10, 0, 0⟩)
  , ("tor_bridge", ⟨"tor_bridge", 3/5, 0, 0⟩)
  , ("fallback_direct", ⟨"fallback_direct", 9/10, 0, 0⟩) ]

namespace EnhancedNetworkManager

/-- The score of one strategy in `_get_ordered_strategies` (lines 107–108):
`recency_bonus = max(0, 1 - (current_time - last_used) / 3600)`;
`score = success_rate + recency_bonus * 0.1`. -/
def strategyScore (current_time : ℚ) (s : RequestStrategy) : ℚ :=
  s.success_rate + max 0 (1 - (current_time - s.last_used) / 3600) * (1/10)

/-- Python's descending sort on `(score, name)` tuples
(`scored_strategies.sort(reverse=True)`, line 112): `a` comes before `b`
iff `(b.score, b.name) <lex (a.score, a.name)` (tuples are never equal
because strategy names are distinct dict keys). -/
def leLexB (a b : ℚ × String) : Bool :=
  decide (b.1 < a.1) || (decide (a.1 = b.1) && pyStrLt b.2 a.2)

/-- Method `EnhancedNetworkManager._get_ordered_strategies` (lines 100–113):
score every registered strategy, sort `(score, name)` pairs descending,
return the names. -/
def get_ordered_strategies (current_time : ℚ)
    (strategies : List (String × RequestStrategy)) : List String :=
  (sortByB leLexB
    (strategies.map (fun p => (strategyScore current_time p.2, p.1)))).map
    Prod.snd

/-- Ordering as worded by the spec (§4.4 step 1): sort descending on
`score = success_rate + 0.1 * recency_bonus`, ties broken by insertion
order.  This definition follows the spec's words (elements carry their
insertion index; the tie-break compares indices) and is compared with
`get_ordered_strategies`, which is the code's definition. -/
def leSpecB (a b : ℚ × ℕ × String) : Bool :=
  decide (b.1 < a.1) || (decide (a.1 = b.1) && decide (a.2.1 < b.2.1))

/-- Spec-worded strategy ordering (see `leSpecB`). -/
def specOrderedStrategies (current_time : ℚ)
    (strategies : List (String × RequestStrategy)) : List String :=
  (sortByB leSpecB
    ((withIdx strategies 0).map
      (fun p => (strategyScore current_time p.2.2, p.1, p.2.1)))).map
    (fun t => t.2.2)

/-- Method `EnhancedNetworkManager._update_strategy_success` (lines 289–305),
acting on the strategies list: EMA update with `alpha = 0.3`, clamped to
`[0.1, 0.95]`; on failure the failure count is incremented; `last_used`
is stamped with the current time.  A name not in the dict is a no-op
(line 291–292). -/
def update_strategy_success (strategy : String) (success : Bool) (now : ℚ)
    (strategies : List (String × RequestStrategy)) :
    List (String × RequestStrategy) :=
  strategies.map (fun p =>
    if p.1 = strategy then
      let new_rate : ℚ :=
        if success then p.2.success_rate * (1 - 3/10) + 3/10
        else p.2.success_rate * (1 - 3/10)
      (p.1,
        { p.2 with
          success_rate := max (1/10) (min (19/20) new_rate)
          last_used := now
          failures := if success then p.2.failures else p.2.failures + 1 })
    else p)

/-- Outcome of `_execute_strategy` for one strategy: either the returned
result dict, or a raised exception (caught at line 83). -/
inductive ExecOutcome where
  | res (success : Bool) (status_code : ℕ) (response_time : ℚ)
        (error : Option String)
  | exn (msg : String)
deriving Repr, DecidableEq

/-- One entry of the `attempts` list built by `make_resilient_request`:
lines 63–69 (normal path) and 86–90 (exception path). -/
inductive RAttempt where
  | tried (strategy : String) (success : Bool) (status_code : ℕ)
          (response_time : ℚ)
  | errored (strategy : String) (error : String)
deriving Repr, DecidableEq

/-- The strategy name an attempt record is about. -/
def RAttempt.strategy : RAttempt → String
  | .tried s _ _ _ => s
  | .errored s _ => s

/-- Result dict of `make_resilient_request`: either the successful
strategy's result enriched with `strategy_used` and `attempts`
(lines 71–75), or the aggregate failure dict (lines 93–98). -/
structure RRResult where
  success : Bool
  strategy_used : Option String
  attempts : List RAttempt
  strategies_tried : Option ℕ
  error : Option String
deriving Repr, DecidableEq

/-- The strategy loop of `make_resilient_request` (lines 59–91): walk the
ordered strategies; a successful attempt stops the loop; failures and
exceptions update the strategy score and accumulate attempt records.
Returns the records produced, the successful strategy (if any), the last
error text, and the updated strategies list. -/
def mrrGo (exec : String → ExecOutcome) (now : ℚ) :
    List String → List (String × RequestStrategy) → Option String →
    List RAttempt × Option String × Option String ×
      List (String × RequestStrategy)
  | [], st, lastErr => ([], none, lastErr, st)
  | s :: rest, st, lastErr =>
    match exec s with
    | .res success status_code response_time error =>
      let record := RAttempt.tried s success status_code response_time
      if success then
        ([record], some s, lastErr, update_strategy_success s true now st)
      else
        let st' := update_strategy_success s false now st
        let lastErr' := some (error.getD "Unknown error")
        let (recs, found, le', st'') := mrrGo exec now rest st' lastErr'
        (record :: recs, found, le', st'')
    | .exn msg =>
      let st' := update_strategy_success s false now st
      let (recs, found, le', st'') := mrrGo exec now rest st' (some msg)
      (RAttempt.errored s msg :: recs, found, le', st'')

/-- Method `EnhancedNetworkManager.make_resilient_request` (lines 49–98):
order the strategies, try them in order, return the success result or
the aggregate failure carrying every attempt record. -/
def make_resilient_request (exec : String → ExecOutcome) (now : ℚ)
    (strategies : List (String × RequestStrategy)) :
    RRResult × List (String × RequestStrategy) :=
  let ordered := get_ordered_strategies now strategies
  let (recs, found, lastErr, st') := mrrGo exec now ordered strategies none
  match found with
  | some s =>
    ({ success := true, strategy_used := some s, attempts := recs
     , strategies_tried := none, error := none }, st')
  | none =>
    ({ success := false, strategy_used := none, attempts := recs
     , strategies_tried := some ordered.length
     , error := some ("All strategies failed. Last error: " ++
         lastErr.getD "None") }, st')

end EnhancedNetworkManager

/-! ## Circuit Breaker (`src/multi_engine_search.py`, lines 57–114) -/

/-- The three breaker states (`'closed'`, `'open'`, `'half-open'`). -/
inductive CBPhase where
  | closed
  | open
  | halfOpen
deriving Repr, DecidableEq

/-- Dataclass `CircuitBreakerState` (lines 57–64). -/
structure CircuitBreakerState where
  failures : ℕ
  last_failure_time : ℚ
  state : CBPhase
  success_count : ℕ
  total_attempts : ℕ
deriving Repr, DecidableEq

/-- Class `CircuitBreaker` (lines 67–73): constructor parameters plus state. -/
structure CircuitBreaker where
  failure_threshold : ℕ
  timeout : ℚ
  st : CircuitBreakerState
deriving Repr, DecidableEq

namespace CircuitBreaker

/-- A freshly constructed breaker (`CircuitBreakerState()` defaults). -/
def init (failure_threshold : ℕ) (timeout : ℚ) : CircuitBreaker :=
  ⟨failure_threshold, timeout, ⟨0, 0, .closed, 0, 0⟩⟩

/-- Method `CircuitBreaker.is_open` (lines 75–88).  Reads the clock (`now`) and
may mutate the state (open → half-open once the cooldown has elapsed),
so it returns the answer together with the updated breaker. -/
def is_open (now : ℚ) (cb : CircuitBreaker) : Bool × CircuitBreaker :=
  match cb.st.state with
  | .closed => (false, cb)
  | .open =>
    if now - cb.st.last_failure_time > cb.timeout then
      (false, { cb with st := { cb.st with state := .halfOpen } })
    else (true, cb)
  | .halfOpen => (false, cb)

/-- Method `CircuitBreaker.record_success` (lines 90–98). -/
def record_success (cb : CircuitBreaker) : CircuitBreaker :=
  let st := { cb.st with
    success_count := cb.st.success_count + 1
    total_attempts := cb.st.total_attempts + 1 }
  if st.state = .halfOpen then
    { cb with st := { st with state := .closed, failures := 0 } }
  else { cb with st := st }

/-- Method `CircuitBreaker.record_failure` (lines 100–108). -/
def record_failure (now : ℚ) (cb : CircuitBreaker) : CircuitBreaker :=
  let st := { cb.st with
    failures := cb.st.failures + 1
    total_attempts := cb.st.total_attempts + 1
    last_failure_time := now }
  if st.failures ≥ cb.failure_threshold then
    { cb with st := { st with state := .open } }
  else { cb with st := st }

end CircuitBreaker

/-! ## Multi-Engine Search Coordinator (`src/multi_engine_search.py`,
lines 349–494) -/

/-- One entry of the `attempts` list built by `MultiEngineSearch.search`:
skipped (lines 426–430), validation failure (460–464), exception
(470–474), success (443–447). -/
inductive SAttempt where
  | skipped (engine : String) (reason : String)
  | vfailed (engine : String) (reason : String)
  | errored (engine : String) (error : String)
  | succeeded (engine : String) (result_count : ℕ)
deriving Repr, DecidableEq

/-- The engine name an attempt record is about. -/
def SAttempt.engine : SAttempt → String
  | .skipped e _ => e
  | .vfailed e _ => e
  | .errored e _ => e
  | .succeeded e _ => e

/-- Result dict of `MultiEngineSearch.search`: success (lines 449–457)
or exhaustion (477–486). -/
structure SearchOutcome where
  success : Bool
  engine : Option String
  results : List String
  total : ℕ
  attempts : List SAttempt
  engines_tried : Option (List String)
  error : Option String
deriving Repr, DecidableEq

/-- Pointwise update of the per-engine breaker map: engine `e` now maps
to `cb`. -/
def updBk (bks : String → CircuitBreaker) (e : String)
    (cb : CircuitBreaker) : String → CircuitBreaker :=
  fun n => if n = e then cb else bks n

/-- The engine loop of `MultiEngineSearch.search` (lines 418–474).
Arguments: `runEngine` is the adapter call (`.error` = a raised
exception), `validate` the result validator, `start` the loop's start
time, `timeAt k` the clock value observed in iteration `k`, `timeout`
the wall-clock budget, and `bks` the per-engine circuit breakers (total
as a function; in the source every available engine has a breaker).
Each iteration first checks the budget (line 420, loop exit), then the
engine's breaker — `is_open` may mutate it — then calls the adapter and
validator, recording success or failure on the breaker.  Returns the
attempt records, the successful engine's name and results (if any), and
the updated breakers. -/
def searchGo (runEngine : String → Except String (List String))
    (validate : List String → Bool) (start : ℚ) (timeAt : ℕ → ℚ)
    (timeout : ℚ) :
    List String → ℕ → (String → CircuitBreaker) →
    List SAttempt × Option (String × List String) × (String → CircuitBreaker)
  | [], _, bks => ([], none, bks)
  | e :: rest, k, bks =>
    if timeAt k - start > timeout then ([], none, bks)
    else
      let p := CircuitBreaker.is_open (timeAt k) (bks e)
      let bks1 := updBk bks e p.2
      if p.1 then
        let r := searchGo runEngine validate start timeAt timeout rest (k+1)
          bks1
        (SAttempt.skipped e "circuit_breaker_open" :: r.1, r.2.1, r.2.2)
      else
        match runEngine e with
        | .ok results =>
          if validate results then
            ([SAttempt.succeeded e results.length], some (e, results),
              updBk bks1 e (CircuitBreaker.record_success p.2))
          else
            let r := searchGo runEngine validate start timeAt timeout rest
              (k+1) (updBk bks1 e (CircuitBreaker.record_failure (timeAt k)
                p.2))
            (SAttempt.vfailed e "validation_failed" :: r.1, r.2.1, r.2.2)
        | .error msg =>
          let r := searchGo runEngine validate start timeAt timeout rest
            (k+1) (updBk bks1 e (CircuitBreaker.record_failure (timeAt k)
              p.2))
          (SAttempt.errored e msg :: r.1, r.2.1, r.2.2)

/-- Method `MultiEngineSearch.search` (lines 403–486): run the engine
loop over the available engines in priority order and package the
result dict. -/
def MultiEngineSearch.search (runEngine : String → Except String (List String))
    (validate : List String → Bool) (start : ℚ) (timeAt : ℕ → ℚ)
    (timeout : ℚ) (engines : List String)
    (breakers : String → CircuitBreaker) :
    SearchOutcome × (String → CircuitBreaker) :=
  let r := searchGo runEngine validate start timeAt timeout engines 0 breakers
  match r.2.1 with
  | some (e, results) =>
    ({ success := true, engine := some e, results := results
     , total := results.length, attempts := r.1, engines_tried := none
     , error := none }, r.2.2)
  | none =>
    ({ success := false, engine := none, results := []
     , total := 0, attempts := r.1
     , engines_tried := some (r.1.map SAttempt.engine)
     , error := some "All search engines failed" }, r.2.2)

/-! ## Persistent TTL/LRU Cache (`src/persistent_cache.py`) -/

/-- One row of the `cache` table (persistent_cache.py, lines 77–87). -/
structure CacheEntry where
  key : String
  url : String
  data : String
  timestamp : ℚ
  ttl : ℚ
  hits : ℕ
  last_accessed : ℚ
deriving Repr, DecidableEq

/-- The cache store plus the in-process `CacheStats` counters
(lines 20–30, 67).  Rows are kept in insertion order. -/
structure CacheState where
  entries : List CacheEntry
  hits : ℕ
  misses : ℕ
  evictions : ℕ
deriving Repr, DecidableEq

/-- Constructor parameters of `PersistentCache.__init__` (lines 45–66)
that the claims depend on. -/
structure CacheConfig where
  max_size : ℕ
  default_ttl : ℚ
deriving Repr, DecidableEq

namespace PersistentCache

/-- Method `PersistentCache._make_key` (lines 103–115).  The MD5 hash is
modelled as the identity on its input `key_input`. -/
def make_key (url : String) (context : Option String) : String :=
  match context with
  | some c => url ++ ":" ++ c
  | none => url

/-- Method `PersistentCache.get` (lines 117–170).  Argument `loads` models
`json.loads` on the stored text (`none` = it raises, caught at
line 167).  Returns the value (or `none` for a miss) and the updated
state.  Note the order of effects in the source: the row's
`hits`/`last_accessed` update and the in-process hit counter
(lines 154–162) are committed *before* deserialization is attempted
(line 165). -/
def get (loads : String → Option String) (now : ℚ) (url : String)
    (context : Option String) (st : CacheState) :
    Option String × CacheState :=
  let key := make_key url context
  match st.entries.find? (fun e => e.key = key) with
  | none => (none, { st with misses := st.misses + 1 })
  | some e =>
    if now - e.timestamp > e.ttl then
      (none,
        { st with
          entries := st.entries.filter (fun e2 => e2.key ≠ key)
          misses := st.misses + 1 })
    else
      let st1 :=
        { st with
          entries := st.entries.map (fun e2 =>
            if e2.key = key then
              { e2 with hits := e2.hits + 1, last_accessed := now }
            else e2)
          hits := st.hits + 1 }
      match loads e.data with
      | some v => (some v, st1)
      | none => (none, { st1 with misses := st1.misses + 1 })

/-- The key the SQL LRU-eviction subquery picks (lines 202–209):
`SELECT key FROM cache ORDER BY last_accessed ASC LIMIT 1`.  A
`last_accessed` tie is broken arbitrarily in SQLite; here the earliest
row wins (the claims below only exercise states with distinct
`last_accessed` values, where the choice is forced). -/
def lruVictim (entries : List CacheEntry) : Option String :=
  (entries.foldl (fun acc e =>
    match acc with
    | none => some e
    | some m => if e.last_accessed < m.last_accessed then some e else some m)
    none).map (fun e => e.key)

/-- Method `PersistentCache.set` (lines 172–223).  Argument `dumps` models
`json.dumps(data)`: `none` means the value is unserializable and the
call raises, which is caught at line 222 before any store access, so
the state is returned unchanged.  Otherwise: a falsy `ttl` argument
falls back to `default_ttl` (line 189, Python `or`); if the row count
is at least `max_size` the LRU row is deleted and the eviction counter
incremented (lines 200–210); then the row is inserted or replaced with
fresh `timestamp`/`last_accessed` and `hits = 0` (lines 212–218). -/
def set (cfg : CacheConfig) (now : ℚ) (url : String)
    (dumps : Option String) (ttl : Option ℚ) (context : Option String)
    (st : CacheState) : CacheState :=
  let key := make_key url context
  let ttlv := match ttl with
    | none => cfg.default_ttl
    | some t => if t = 0 then cfg.default_ttl else t
  match dumps with
  | none => st
  | some data_json =>
    let st1 :=
      if st.entries.length ≥ cfg.max_size then
        { st with
          entries := match lruVictim st.entries with
            | none => st.entries
            | some vk => st.entries.filter (fun e => e.key ≠ vk)
          evictions := st.evictions + 1 }
      else st
    { st1 with
      entries := st1.entries.filter (fun e => e.key ≠ key) ++
        [{ key := key, url := url, data := data_json, timestamp := now
         , ttl := ttlv, hits := 0, last_accessed := now }] }

end PersistentCache

/-! ## `stealth_request` cache-TTL choice (`src/browser_automation.py`,
lines 2635–2721) -/

/-- The TTL picked at line 2707 when a successful GET response is stored
into the cache: `ttl = 30 if result.get('status_code', 0) >= 400 else
300`.  The argument is the response's `status_code` entry (`none` when
the key is absent, in which case Python's `.get` default `0` applies). -/
def stealthCacheTTL (status_code : Option ℤ) : ℚ :=
  if status_code.getD 0 ≥ 400 then 30 else 300

/-- The caching decision of `stealth_request` (lines 2705–2708): a
response is stored only for a successful GET with caching enabled, and
then with TTL `stealthCacheTTL`.  Returns the TTL passed to
`cache.set`, or `none` when the response is not cached. -/
def stealthCacheDecision (method : String) (use_cache : Bool)
    (success : Bool) (status_code : Option ℤ) : Option ℚ :=
  if method = "GET" ∧ success = true ∧ use_cache = true then
    some (stealthCacheTTL status_code)
  else none

/-! ## Claim C2 -/

/-- C2: for a circuit breaker with cooldown 30 that is in the open state
with `last_failure_time = t0`, `is_open` at `t0+29` answers true and
leaves the state open; the call at `t0+31` answers false and flips the
state to half-open — a flip that can happen only once, since afterwards
the state is no longer open; a `record_success` issued immediately after
closes the breaker and resets the consecutive-failure count to 0, after
which `is_open` answers false at every later time without further state
change. -/
theorem circuitBreaker_cooldown_halfopen_probe (t0 : ℚ) (th f sc ta : ℕ) :
    CircuitBreaker.is_open (t0 + 29) ⟨th, 30, ⟨f, t0, CBPhase.open, sc, ta⟩⟩ =
      (true, ⟨th, 30, ⟨f, t0, CBPhase.open, sc, ta⟩⟩) ∧
    CircuitBreaker.is_open (t0 + 31) ⟨th, 30, ⟨f, t0, CBPhase.open, sc, ta⟩⟩ =
      (false, ⟨th, 30, ⟨f, t0, CBPhase.halfOpen, sc, ta⟩⟩) ∧
    CircuitBreaker.record_success ⟨th, 30, ⟨f, t0, CBPhase.halfOpen, sc, ta⟩⟩ =
      ⟨th, 30, ⟨0, t0, CBPhase.closed, sc + 1, ta + 1⟩⟩ ∧
    ∀ t : ℚ,
      CircuitBreaker.is_open t
          ⟨th, 30, ⟨0, t0, CBPhase.closed, sc + 1, ta + 1⟩⟩ =
        (false, ⟨th, 30, ⟨0, t0, CBPhase.closed, sc + 1, ta + 1⟩⟩) := by
  refine ⟨?_, ?_, ?_, fun t => ?_⟩
  · have h : ¬ (t0 + 29 - t0 > (30 : ℚ)) := by linarith
    simp [CircuitBreaker.is_open, h]
    norm_num
  · have h : t0 + 31 - t0 > (30 : ℚ) := by linarith
    simp [CircuitBreaker.is_open, h]
    norm_num
  · simp [CircuitBreaker.record_success]
  · simp [CircuitBreaker.is_open]

/-! ## Claim C9 -/

/-- C9: `record_success` in the closed state leaves the failure counter
unchanged (it is reset only by a success in the half-open state), so
with `failure_threshold = 3` the non-consecutive sequence failure,
success, failure, failure still opens the breaker. -/
theorem record_success_closed_keeps_failures :
    (∀ cb : CircuitBreaker, cb.st.state = CBPhase.closed →
      (CircuitBreaker.record_success cb).st.failures = cb.st.failures) ∧
    (CircuitBreaker.record_failure 3
        (CircuitBreaker.record_failure 2
          (CircuitBreaker.record_success
            (CircuitBreaker.record_failure 1
              (CircuitBreaker.init 3 30))))).st.state = CBPhase.open := by
  constructor
  · intro cb h
    simp [CircuitBreaker.record_success, h]
  · rfl

/-- C9, witness: the closed-state clause of
`record_success_closed_keeps_failures` applied to the breaker obtained
after the first failure of the concrete sequence. -/
theorem record_success_closed_keeps_failures_witness :
    (CircuitBreaker.record_success
        (CircuitBreaker.record_failure 1 (CircuitBreaker.init 3 30))).st.failures =
      (CircuitBreaker.record_failure 1 (CircuitBreaker.init 3 30)).st.failures :=
  record_success_closed_keeps_failures.1
    (CircuitBreaker.record_failure 1 (CircuitBreaker.init 3 30)) rfl

/-! ## Claim C10 -/

/-- C10: a `set` whose value cannot be serialized (`json.dumps` raises)
returns the cache state completely unchanged — no entry is inserted,
replaced or evicted and no counter moves — so a subsequent `get` of any
key behaves exactly as before the failed `set`. -/
theorem set_unserializable_is_noop (cfg : CacheConfig) (now : ℚ)
    (url : String) (ttl : Option ℚ) (ctx : Option String) (st : CacheState) :
    PersistentCache.set cfg now url none ttl ctx st = st ∧
    ∀ (loads : String → Option String) (now2 : ℚ) (url2 : String)
      (ctx2 : Option String),
      PersistentCache.get loads now2 url2 ctx2
          (PersistentCache.set cfg now url none ttl ctx st) =
        PersistentCache.get loads now2 url2 ctx2 st :=
  ⟨rfl, fun _ _ _ _ => rfl⟩

/-! ## Claim C7 -/

/-- C7, counterexample: it is not the case that every
non-2xx-equivalent response gets a strictly shorter cache TTL than
every 2xx response: status 301 is not 2xx, yet `stealth_request` gives
it the same 300-second TTL as a 200 response. -/
theorem stealthCacheTTL_non2xx_not_always_shorter :
    ¬ (∀ s1 s2 : ℤ, ¬ (200 ≤ s1 ∧ s1 < 300) → (200 ≤ s2 ∧ s2 < 300) →
        stealthCacheTTL (some s1) < stealthCacheTTL (some s2)) := by
  intro h
  have h301 := h 301 200 (by norm_num) (by norm_num)
  norm_num [stealthCacheTTL] at h301

/-- C7, amended: the TTL chosen by `stealth_request` when storing a
successful GET response is 30 seconds for statuses at least 400 and 300
seconds otherwise; so the strict shorter-TTL guarantee holds only
between a status ≥ 400 and a 2xx status, while a non-2xx status below
400 (a redirect, or the absent/zero status) receives the same long TTL
as a confirmed-good response. -/
theorem stealthCacheTTL_shorter_iff_ge_400 (s1 s2 : ℤ)
    (h1 : 400 ≤ s1) (h2 : 200 ≤ s2) (h2' : s2 < 300) :
    stealthCacheTTL (some s1) = 30 ∧
    stealthCacheTTL (some s2) = 300 ∧
    stealthCacheTTL (some s1) < stealthCacheTTL (some s2) ∧
    stealthCacheDecision "GET" true true (some s1) = some 30 ∧
    stealthCacheDecision "GET" true true (some s2) = some 300 ∧
    stealthCacheTTL (some 301) = 300 := by
  have g1 : (400 : ℤ) ≤ s1 := h1
  have g2 : ¬ ((400 : ℤ) ≤ s2) := by omega
  refine ⟨?_, ?_, ?_, ?_, ?_, ?_⟩ <;>
    simp [stealthCacheTTL, stealthCacheDecision, g1, g2] <;>
    norm_num

/-- C7, witness: the amended theorem at statuses 404 and 200. -/
theorem stealthCacheTTL_shorter_iff_ge_400_witness :
    stealthCacheTTL (some 404) = 30 ∧
    stealthCacheTTL (some 200) = 300 ∧
    stealthCacheTTL (some 404) < stealthCacheTTL (some 200) ∧
    stealthCacheDecision "GET" true true (some 404) = some 30 ∧
    stealthCacheDecision "GET" true true (some 200) = some 300 ∧
    stealthCacheTTL (some 301) = 300 :=
  stealthCacheTTL_shorter_iff_ge_400 404 200 (by norm_num) (by norm_num)
    (by norm_num)

/-! ## Claim C4 -/

/-- Effect of one `_update_strategy_success` call on the entry it names:
the entry found under `name` is rewritten with the clamped EMA rate, the
stamped `last_used`, and the conditional failure increment. -/
lemma find?_update_strategy_success
    (strategies : List (String × RequestStrategy)) (name : String)
    (now : ℚ) (success : Bool) (s : RequestStrategy)
    (h : strategies.find? (fun p => p.1 = name) = some (name, s)) :
    (EnhancedNetworkManager.update_strategy_success name success now
        strategies).find? (fun p => p.1 = name) =
      some (name,
        { s with
          success_rate :=
            max (1/10) (min (19/20)
              (if success then s.success_rate * (1 - 3/10) + 3/10
               else s.success_rate * (1 - 3/10)))
          last_used := now
          failures := if success then s.failures else s.failures + 1 }) := by
  induction strategies with
  | nil => simp at h
  | cons p rest ih =>
    by_cases hp : p.1 = name
    · rw [List.find?_cons_of_pos] at h
      · rw [EnhancedNetworkManager.update_strategy_success, List.map_cons]
        rw [List.find?_cons_of_pos]
        · simp only [hp, if_pos rfl] at h ⊢
          simp only [Option.some.injEq] at h
          subst h
          rfl
        · simp [hp]
      · simp [hp]
    · rw [List.find?_cons_of_neg] at h
      · rw [EnhancedNetworkManager.update_strategy_success, List.map_cons]
        rw [List.find?_cons_of_neg]
        · exact ih h
        · simp [hp]
      · simp [hp]

/-- C4: one update of a strategy rewrites its `success_rate` to
`clamp(rate*(1-0.3) + (0.3 if success else 0), 0.1, 0.95)` and stamps
`last_used` with the current time; numerically, a strategy at rate 0.9
that fails once drops to 0.63, and one at 0.5 that succeeds once rises
to 0.65. -/
theorem update_strategy_success_ema :
    (∀ (strategies : List (String × RequestStrategy)) (name : String)
       (now : ℚ) (success : Bool) (s : RequestStrategy),
       strategies.find? (fun p => p.1 = name) = some (name, s) →
       (EnhancedNetworkManager.update_strategy_success name success now
           strategies).find? (fun p => p.1 = name) =
         some (name,
           { s with
             success_rate :=
               max (1/10) (min (19/20)
                 (if success then s.success_rate * (1 - 3/10) + 3/10
                  else s.success_rate * (1 - 3/10)))
             last_used := now
             failures := if success then s.failures else s.failures + 1 })) ∧
    ((EnhancedNetworkManager.update_strategy_success "fallback_direct" false 5
        initStrategies).find? (fun p => p.1 = "fallback_direct")).map
      (fun p => (p.2.success_rate, p.2.last_used)) = some (63/100, 5) ∧
    ((EnhancedNetworkManager.update_strategy_success "tor_primary" true 5
        initStrategies).find? (fun p => p.1 = "tor_primary")).map
      (fun p => (p.2.success_rate, p.2.last_used)) = some (13/20, 5) := by
  refine ⟨fun strategies name now success s h =>
    find?_update_strategy_success strategies name now success s h, ?_, ?_⟩
  · rw [find?_update_strategy_success initStrategies "fallback_direct" 5 false
      ⟨"fallback_direct", 9/10, 0, 0⟩ rfl]
    norm_num [min_def, max_def]
  · rw [find?_update_strategy_success initStrategies "tor_primary" 5 true
      ⟨"tor_primary", 1/2, 0, 0⟩ rfl]
    norm_num [min_def, max_def]

/-- C4, witness: the general clause of `update_strategy_success_ema`
applied to the registered strategies and the `tor_primary` entry (rate
0.5), one success at time 5. -/
theorem update_strategy_success_ema_witness :
    (EnhancedNetworkManager.update_strategy_success "tor_primary" true 5
        initStrategies).find? (fun p => p.1 = "tor_primary") =
      some ("tor_primary",
        { name := "tor_primary"
          success_rate := max (1/10) (min (19/20) ((1/2) * (1 - 3/10) + 3/10))
          last_used := 5
          failures := 0 }) :=
  update_strategy_success_ema.1 initStrategies "tor_primary" 5 true
    ⟨"tor_primary", 1/2, 0, 0⟩ rfl

/-! ## Claim C8 -/

/-- An arbitrary sequence of per-strategy success/failure updates
applied to the construction-time strategies, in order.  Each list item
is (strategy name, success flag, the `time.time()` the update
observes). -/
def applyUpdates (upds : List (String × Bool × ℚ))
    (strategies : List (String × RequestStrategy)) :
    List (String × RequestStrategy) :=
  upds.foldl
    (fun acc u =>
      EnhancedNetworkManager.update_strategy_success u.1 u.2.1 u.2.2 acc)
    strategies

/-- One update keeps every entry's `success_rate` inside `[0.1, 0.95]`
provided it was inside before. -/
lemma update_strategy_success_rate_bounds (name : String) (success : Bool)
    (now : ℚ) (strategies : List (String × RequestStrategy))
    (h : ∀ p ∈ strategies,
      1/10 ≤ p.2.success_rate ∧ p.2.success_rate ≤ 19/20) :
    ∀ p ∈ EnhancedNetworkManager.update_strategy_success name success now
      strategies,
      1/10 ≤ p.2.success_rate ∧ p.2.success_rate ≤ 19/20 := by
  intro p hp
  rw [EnhancedNetworkManager.update_strategy_success] at hp
  obtain ⟨q, hq, rfl⟩ := List.mem_map.1 hp
  by_cases hqn : q.1 = name
  · simp only [hqn, if_pos rfl]
    constructor
    · exact le_max_left _ _
    · exact max_le (by norm_num) (min_le_left _ _)
  · simp only [hqn, if_neg hqn]
    exact h q hq

/-- C8: after every sequence of success/failure updates starting from
the construction-time strategies, every strategy's `success_rate` lies
in the closed interval `[0.1, 0.95]`. -/
theorem success_rate_always_in_bounds :
    ∀ (upds : List (String × Bool × ℚ)) (p : String × RequestStrategy),
      p ∈ applyUpdates upds initStrategies →
      1/10 ≤ p.2.success_rate ∧ p.2.success_rate ≤ 19/20 := by
  have general :
      ∀ (upds : List (String × Bool × ℚ))
        (st : List (String × RequestStrategy)),
        (∀ p ∈ st, 1/10 ≤ p.2.success_rate ∧ p.2.success_rate ≤ 19/20) →
        ∀ p ∈ applyUpdates upds st,
          1/10 ≤ p.2.success_rate ∧ p.2.success_rate ≤ 19/20 := by
    intro upds
    induction upds with
    | nil => intro st h; exact h
    | cons u rest ih =>
      intro st h
      exact ih _ (update_strategy_success_rate_bounds u.1 u.2.1 u.2.2 st h)
  intro upds p hp
  refine general upds initStrategies ?_ p hp
  intro q hq
  simp only [initStrategies, List.mem_cons, List.not_mem_nil, or_false] at hq
  rcases hq with rfl | rfl | rfl | rfl <;> norm_num

/-- C8, witness: the bounds theorem applied to the empty update
sequence and the first registered strategy. -/
theorem success_rate_always_in_bounds_witness :
    1/10 ≤ (("tor_primary",
        (⟨"tor_primary", 1/2, 0, 0⟩ : RequestStrategy)) :
          String × RequestStrategy).2.success_rate ∧
    (("tor_primary",
        (⟨"tor_primary", 1/2, 0, 0⟩ : RequestStrategy)) :
          String × RequestStrategy).2.success_rate ≤ 19/20 :=
  success_rate_always_in_bounds []
    ("tor_primary", ⟨"tor_primary", 1/2, 0, 0⟩)
    (List.mem_cons_self _ _)

/-! ## Claim C5 -/

/-- Auxiliary: `find?` after a `map` that preserves the searched
predicate finds the image of the original witness. -/
lemma find?_map_of_pred_invariant {α : Type} (f : α → α) (q : α → Bool)
    (hq : ∀ x, q (f x) = q x) (l : List α) (e : α)
    (h : l.find? q = some e) : (l.map f).find? q = some (f e) := by
  have hfq : (q ∘ f) = q := funext hq
  rw [List.find?_map, hfq, h]
  rfl

/-- A `loads` oracle under which every stored text is corrupt. -/
def corruptLoads : String → Option String := fun _ => none

/-- A one-entry cache state holding a fresh but undeserializable entry
under key "k". -/
def corruptCacheState : CacheState :=
  ⟨[⟨"k", "k", "garbage", 0, 3600, 0, 0⟩], 0, 0, 0⟩

/-- C5, counterexample: on a cache holding a fresh entry under key "k"
whose stored value cannot be deserialized, `get` returns a miss (`none`,
miss counter incremented) — but, contrary to the claim, the corrupt
entry is *not* removed from the store: it is still found under "k"
afterwards. -/
theorem get_corrupt_entry_not_removed :
    (PersistentCache.get corruptLoads 1 "k" none corruptCacheState).1 =
      none ∧
    (PersistentCache.get corruptLoads 1 "k" none corruptCacheState).2.misses =
      corruptCacheState.misses + 1 ∧
    ¬ ((PersistentCache.get corruptLoads 1 "k" none
          corruptCacheState).2.entries.find? (fun x => x.key = "k") =
        none) := by
  have h : PersistentCache.get corruptLoads 1 "k" none corruptCacheState =
      (none, ⟨[⟨"k", "k", "garbage", 0, 3600, 1, 1⟩], 1, 1, 0⟩) := by
    norm_num [PersistentCache.get, PersistentCache.make_key, corruptLoads,
      corruptCacheState, List.find?]
  rw [h]
  refine ⟨rfl, rfl, ?_⟩
  simp [List.find?]

/-- C5, amended: a `get` of an entry that is present and unexpired but
whose stored value cannot be deserialized is treated as a miss — it
returns `none`, increments the miss counter, and raises no exception —
but the corrupt entry is *not* removed from the store; it remains
present (with its per-row hit count and `last_accessed` already updated,
and the in-process hit counter also incremented, since those effects are
committed before deserialization is attempted). -/
theorem get_corrupt_entry_is_miss_entry_kept
    (loads : String → Option String) (now : ℚ) (url : String)
    (ctx : Option String) (st : CacheState) (e : CacheEntry)
    (hfind : st.entries.find?
      (fun x => x.key = PersistentCache.make_key url ctx) = some e)
    (hfresh : ¬ (now - e.timestamp > e.ttl))
    (hcorrupt : loads e.data = none) :
    (PersistentCache.get loads now url ctx st).1 = none ∧
    (PersistentCache.get loads now url ctx st).2.misses = st.misses + 1 ∧
    (PersistentCache.get loads now url ctx st).2.hits = st.hits + 1 ∧
    (PersistentCache.get loads now url ctx st).2.entries.find?
        (fun x => x.key = PersistentCache.make_key url ctx) =
      some { e with hits := e.hits + 1, last_accessed := now } := by
  have hkey : e.key = PersistentCache.make_key url ctx := by
    simpa using List.find?_some hfind
  have hg : PersistentCache.get loads now url ctx st =
      (none,
        { entries := st.entries.map (fun e2 =>
            if e2.key = PersistentCache.make_key url ctx then
              { e2 with hits := e2.hits + 1, last_accessed := now }
            else e2)
          hits := st.hits + 1
          misses := st.misses + 1
          evictions := st.evictions }) := by
    simp only [PersistentCache.get, hfind, if_neg hfresh, hcorrupt]
  rw [hg]
  refine ⟨rfl, rfl, rfl, ?_⟩
  have hmap := find?_map_of_pred_invariant
    (fun e2 => if e2.key = PersistentCache.make_key url ctx then
      { e2 with hits := e2.hits + 1, last_accessed := now } else e2)
    (fun x => x.key = PersistentCache.make_key url ctx)
    (fun x => by by_cases hx : x.key = PersistentCache.make_key url ctx <;>
      simp [hx])
    st.entries e hfind
  simpa [if_pos hkey] using hmap

/-- C5, witness: the amended theorem applied to the concrete corrupt
one-entry cache. -/
theorem get_corrupt_entry_is_miss_entry_kept_witness :
    (PersistentCache.get corruptLoads 1 "k" none corruptCacheState).1 =
      none ∧
    (PersistentCache.get corruptLoads 1 "k" none
        corruptCacheState).2.misses = corruptCacheState.misses + 1 ∧
    (PersistentCache.get corruptLoads 1 "k" none
        corruptCacheState).2.hits = corruptCacheState.hits + 1 ∧
    (PersistentCache.get corruptLoads 1 "k" none
        corruptCacheState).2.entries.find?
        (fun x => x.key = PersistentCache.make_key "k" none) =
      some { key := "k", url := "k", data := "garbage", timestamp := 0
           , ttl := 3600, hits := 0 + 1, last_accessed := 1 } :=
  get_corrupt_entry_is_miss_entry_kept corruptLoads 1 "k" none
    corruptCacheState ⟨"k", "k", "garbage", 0, 3600, 0, 0⟩ rfl
    (by norm_num) rfl

/-! ## Claim C3 -/

/-- Auxiliary: the minimum-tracking fold inside `lruVictim`, started
from a candidate `m`, yields an element drawn from `m` and the list that
minimizes `last_accessed` over all of them. -/
lemma lruFold_spec : ∀ (l : List CacheEntry) (m : CacheEntry),
    ∃ v, l.foldl (fun acc e =>
        match acc with
        | none => some e
        | some m2 =>
          if e.last_accessed < m2.last_accessed then some e else some m2)
        (some m) = some v ∧
      (v = m ∨ v ∈ l) ∧ v.last_accessed ≤ m.last_accessed ∧
      ∀ e ∈ l, v.last_accessed ≤ e.last_accessed := by
  intro l
  induction l with
  | nil => exact fun m => ⟨m, rfl, Or.inl rfl, le_refl _, by simp⟩
  | cons a rest ih =>
    intro m
    by_cases hl : a.last_accessed < m.last_accessed
    · obtain ⟨v, hv, hmem, hle, hall⟩ := ih a
      refine ⟨v, ?_, ?_, ?_, ?_⟩
      · simpa [hl] using hv
      · rcases hmem with rfl | h
        · exact Or.inr (List.mem_cons_self _ _)
        · exact Or.inr (List.mem_cons_of_mem _ h)
      · exact hle.trans (le_of_lt hl)
      · intro e he
        rcases List.mem_cons.1 he with rfl | he'
        · exact hle
        · exact hall e he'
    · obtain ⟨v, hv, hmem, hle, hall⟩ := ih m
      refine ⟨v, ?_, ?_, ?_, ?_⟩
      · simpa [hl] using hv
      · rcases hmem with rfl | h
        · exact Or.inl rfl
        · exact Or.inr (List.mem_cons_of_mem _ h)
      · exact hle
      · intro e he
        rcases List.mem_cons.1 he with rfl | he'
        · exact hle.trans (not_lt.1 hl)
        · exact hall e he'

/-- Auxiliary: on a nonempty store, `lruVictim` names the key of an
entry with minimal `last_accessed`. -/
lemma lruVictim_spec (l : List CacheEntry) (hne : l ≠ []) :
    ∃ v ∈ l, PersistentCache.lruVictim l = some v.key ∧
      ∀ e ∈ l, v.last_accessed ≤ e.last_accessed := by
  cases l with
  | nil => exact absurd rfl hne
  | cons a rest =>
    obtain ⟨v, hv, hmem, hle, hall⟩ := lruFold_spec rest a
    refine ⟨v, ?_, ?_, ?_⟩
    · rcases hmem with rfl | h
      · exact List.mem_cons_self _ _
      · exact List.mem_cons_of_mem _ h
    · unfold PersistentCache.lruVictim
      simp only [List.foldl_cons]
      rw [hv]
      rfl
    · intro e he
      rcases List.mem_cons.1 he with rfl | he'
      · exact hle
      · exact hall e he'

/-- The call sequence of the claim's scenario, on a cache with
`max_size = 2` and default TTL 3600: `set(a)` at time 0, `set(b)` at
time 1, `get(a)` at time 2 (hit, refreshes `a`), then `set(c)` at
time 3. -/
def lruScenarioFinal : CacheState :=
  PersistentCache.set ⟨2, 3600⟩ 3 "c" (some "dc") none none
    ((PersistentCache.get (fun s => some s) 2 "a" none
      (PersistentCache.set ⟨2, 3600⟩ 1 "b" (some "db") none none
        (PersistentCache.set ⟨2, 3600⟩ 0 "a" (some "da") none none
          ⟨[], 0, 0, 0⟩))).2)

/-- C3: whenever the entry count is at least `max_size`, a (serializable)
`set` increments the eviction counter and evicts an entry with minimal
`last_accessed` — that entry's key is gone afterwards unless it is the
very key being written; and in the concrete scenario `set(a)`, `set(b)`,
`get(a)`, `set(c)` with `max_size = 2`, exactly `b` (least recently
accessed at the time of `set(c)`) is evicted, leaving `a` and `c`. -/
theorem cache_lru_eviction :
    (∀ (cfg : CacheConfig) (now : ℚ) (url : String) (d : String)
       (ttl : Option ℚ) (ctx : Option String) (st : CacheState),
       st.entries.length ≥ cfg.max_size → st.entries ≠ [] →
       (PersistentCache.set cfg now url (some d) ttl ctx st).evictions =
         st.evictions + 1 ∧
       ∃ v ∈ st.entries,
         (∀ e ∈ st.entries, v.last_accessed ≤ e.last_accessed) ∧
         (v.key ≠ PersistentCache.make_key url ctx →
           (PersistentCache.set cfg now url (some d) ttl ctx
               st).entries.find? (fun e => e.key = v.key) = none)) ∧
    lruScenarioFinal.entries.map (fun e => e.key) = ["a", "c"] ∧
    lruScenarioFinal.evictions = 1 ∧
    lruScenarioFinal.entries.find? (fun e => e.key = "b") = none := by
  have general : ∀ (cfg : CacheConfig) (now : ℚ) (url : String) (d : String)
      (ttl : Option ℚ) (ctx : Option String) (st : CacheState),
      st.entries.length ≥ cfg.max_size → st.entries ≠ [] →
      (PersistentCache.set cfg now url (some d) ttl ctx st).evictions =
        st.evictions + 1 ∧
      ∃ v ∈ st.entries,
        (∀ e ∈ st.entries, v.last_accessed ≤ e.last_accessed) ∧
        (v.key ≠ PersistentCache.make_key url ctx →
          (PersistentCache.set cfg now url (some d) ttl ctx
              st).entries.find? (fun e => e.key = v.key) = none) := by
    intro cfg now url d ttl ctx st hlen hne
    obtain ⟨v, hvmem, hvic, hmin⟩ := lruVictim_spec st.entries hne
    constructor
    · simp only [PersistentCache.set, hvic, if_pos hlen]
    · refine ⟨v, hvmem, hmin, fun hneq => ?_⟩
      simp only [PersistentCache.set, hvic, if_pos hlen]
      rw [List.find?_eq_none]
      intro x hx
      simp only [List.mem_append, List.mem_filter, List.mem_singleton] at hx
      rcases hx with ⟨⟨_, hx2⟩, _⟩ | rfl
      · simpa using hx2
      · simpa using fun hcontra => hneq hcontra.symm
  refine ⟨general, ?_⟩
  have s1 : PersistentCache.set ⟨2, 3600⟩ 0 "a" (some "da") none none
      ⟨[], 0, 0, 0⟩ = ⟨[⟨"a", "a", "da", 0, 3600, 0, 0⟩], 0, 0, 0⟩ := by
    norm_num [PersistentCache.set, PersistentCache.make_key,
      PersistentCache.lruVictim]
  have s2 : PersistentCache.set ⟨2, 3600⟩ 1 "b" (some "db") none none
      ⟨[⟨"a", "a", "da", 0, 3600, 0, 0⟩], 0, 0, 0⟩ =
      ⟨[⟨"a", "a", "da", 0, 3600, 0, 0⟩, ⟨"b", "b", "db", 1, 3600, 0, 1⟩],
        0, 0, 0⟩ := by
    norm_num [PersistentCache.set, PersistentCache.make_key,
      PersistentCache.lruVictim, List.filter]
    all_goals first | rfl | decide
  have s3 : PersistentCache.get (fun s => some s) 2 "a" none
      ⟨[⟨"a", "a", "da", 0, 3600, 0, 0⟩, ⟨"b", "b", "db", 1, 3600, 0, 1⟩],
        0, 0, 0⟩ =
      (some "da",
        ⟨[⟨"a", "a", "da", 0, 3600, 1, 2⟩, ⟨"b", "b", "db", 1, 3600, 0, 1⟩],
          1, 0, 0⟩) := by
    norm_num [PersistentCache.get, PersistentCache.make_key, List.find?]
    all_goals first | rfl | decide
  have s4 : PersistentCache.set ⟨2, 3600⟩ 3 "c" (some "dc") none none
      ⟨[⟨"a", "a", "da", 0, 3600, 1, 2⟩, ⟨"b", "b", "db", 1, 3600, 0, 1⟩],
        1, 0, 0⟩ =
      ⟨[⟨"a", "a", "da", 0, 3600, 1, 2⟩, ⟨"c", "c", "dc", 3, 3600, 0, 3⟩],
        1, 0, 1⟩ := by
    norm_num [PersistentCache.set, PersistentCache.make_key,
      PersistentCache.lruVictim, List.filter]
    all_goals first | rfl | decide
  have hfinal : lruScenarioFinal =
      ⟨[⟨"a", "a", "da", 0, 3600, 1, 2⟩, ⟨"c", "c", "dc", 3, 3600, 0, 3⟩],
        1, 0, 1⟩ := by
    unfold lruScenarioFinal
    rw [s1, s2, s3]
    exact s4
  rw [hfinal]
  refine ⟨rfl, rfl, ?_⟩
  simp [List.find?]

/-- C3, witness: the general eviction clause of `cache_lru_eviction`
applied to the scenario's pre-`set(c)` state. -/
theorem cache_lru_eviction_witness :
    (PersistentCache.set ⟨2, 3600⟩ 3 "c" (some "dc") none none
        ⟨[⟨"a", "a", "da", 0, 3600, 1, 2⟩, ⟨"b", "b", "db", 1, 3600, 0, 1⟩],
          1, 0, 0⟩).evictions =
      (⟨[⟨"a", "a", "da", 0, 3600, 1, 2⟩, ⟨"b", "b", "db", 1, 3600, 0, 1⟩],
          1, 0, 0⟩ : CacheState).evictions + 1 ∧
    ∃ v ∈ (⟨[⟨"a", "a", "da", 0, 3600, 1, 2⟩,
              ⟨"b", "b", "db", 1, 3600, 0, 1⟩], 1, 0, 0⟩ :
        CacheState).entries,
      (∀ e ∈ (⟨[⟨"a", "a", "da", 0, 3600, 1, 2⟩,
                ⟨"b", "b", "db", 1, 3600, 0, 1⟩], 1, 0, 0⟩ :
          CacheState).entries, v.last_accessed ≤ e.last_accessed) ∧
      (v.key ≠ PersistentCache.make_key "c" none →
        (PersistentCache.set ⟨2, 3600⟩ 3 "c" (some "dc") none none
            ⟨[⟨"a", "a", "da", 0, 3600, 1, 2⟩,
              ⟨"b", "b", "db", 1, 3600, 0, 1⟩], 1, 0, 0⟩).entries.find?
          (fun e => e.key = v.key) = none) :=
  cache_lru_eviction.1 ⟨2, 3600⟩ 3 "c" "dc" none none
    ⟨[⟨"a", "a", "da", 0, 3600, 1, 2⟩, ⟨"b", "b", "db", 1, 3600, 0, 1⟩],
      1, 0, 0⟩ (by simp) (by simp)

/-! ## Claim C1 -/

/-- An attempt outcome that is a failure from the strategy loop's point
of view: either the strategy raised, or it returned `success = False`. -/
def execFails (exec : String → EnhancedNetworkManager.ExecOutcome)
    (s : String) : Bool :=
  match exec s with
  | .res success _ _ _ => !success
  | .exn _ => true

/-- An engine attempt that is a failure from the coordinator's point of
view: the adapter raised, or its results failed validation. -/
def engineFails (runEngine : String → Except String (List String))
    (validate : List String → Bool) (e : String) : Bool :=
  match runEngine e with
  | .ok r => !validate r
  | .error _ => true

/-- Auxiliary: when every strategy attempt fails, the strategy loop
finds no winner and produces exactly one attempt record per strategy,
in order. -/
lemma mrrGo_allfail (exec : String → EnhancedNetworkManager.ExecOutcome)
    (now : ℚ) :
    ∀ (names : List String) (st : List (String × RequestStrategy))
      (lastErr : Option String),
      (∀ s ∈ names, execFails exec s = true) →
      (EnhancedNetworkManager.mrrGo exec now names st lastErr).2.1 = none ∧
      (EnhancedNetworkManager.mrrGo exec now names st lastErr).1.map
        EnhancedNetworkManager.RAttempt.strategy = names := by
  intro names
  induction names with
  | nil => intro st lastErr _; exact ⟨rfl, rfl⟩
  | cons s rest ih =>
    intro st lastErr h
    have hs : execFails exec s = true := h s (List.mem_cons_self _ _)
    have hrest : ∀ x ∈ rest, execFails exec x = true :=
      fun x hx => h x (List.mem_cons_of_mem _ hx)
    cases hexec : exec s with
    | res success status rt err =>
      have hsucc : success = false := by
        simpa [execFails, hexec] using hs
      subst hsucc
      obtain ⟨ih1, ih2⟩ :=
        ih (EnhancedNetworkManager.update_strategy_success s false now st)
          (some (err.getD "Unknown error")) hrest
      simp only [EnhancedNetworkManager.mrrGo, hexec] at *
      rcases hgo : EnhancedNetworkManager.mrrGo exec now rest
          (EnhancedNetworkManager.update_strategy_success s false now st)
          (some (err.getD "Unknown error")) with ⟨recs, found, le2, st2⟩
      rw [hgo] at ih1 ih2
      simp only [hgo]
      simp_all [EnhancedNetworkManager.RAttempt.strategy]
    | exn msg =>
      obtain ⟨ih1, ih2⟩ :=
        ih (EnhancedNetworkManager.update_strategy_success s false now st)
          (some msg) hrest
      simp only [EnhancedNetworkManager.mrrGo, hexec] at *
      rcases hgo : EnhancedNetworkManager.mrrGo exec now rest
          (EnhancedNetworkManager.update_strategy_success s false now st)
          (some msg) with ⟨recs, found, le2, st2⟩
      rw [hgo] at ih1 ih2
      simp only [hgo]
      simp_all [EnhancedNetworkManager.RAttempt.strategy]

/-- Auxiliary: when the wall-clock budget never expires and every
engine attempt fails, the engine loop finds no winner and produces
exactly one attempt record per engine — a skip record when the
engine's breaker is open, a failure record otherwise — in priority
order. -/
lemma searchGo_allfail (runEngine : String → Except String (List String))
    (validate : List String → Bool) (start : ℚ) (timeAt : ℕ → ℚ)
    (timeout : ℚ) (hT : ∀ k : ℕ, ¬ (timeAt k - start > timeout)) :
    ∀ (engines : List String) (k : ℕ) (bks : String → CircuitBreaker),
      (∀ e ∈ engines, engineFails runEngine validate e = true) →
      (searchGo runEngine validate start timeAt timeout engines k bks).2.1 =
        none ∧
      (searchGo runEngine validate start timeAt timeout engines k
        bks).1.map SAttempt.engine = engines := by
  intro engines
  induction engines with
  | nil => intro k bks _; exact ⟨rfl, rfl⟩
  | cons e rest ih =>
    intro k bks h
    have he : engineFails runEngine validate e = true :=
      h e (List.mem_cons_self _ _)
    have hrest : ∀ x ∈ rest, engineFails runEngine validate x = true :=
      fun x hx => h x (List.mem_cons_of_mem _ hx)
    rw [searchGo, if_neg (hT k)]
    cases hop : (CircuitBreaker.is_open (timeAt k) (bks e)).1 with
    | true =>
      obtain ⟨ih1, ih2⟩ := ih (k+1)
        (updBk bks e (CircuitBreaker.is_open (timeAt k) (bks e)).2) hrest
      simp only [hop, if_pos]
      exact ⟨ih1, by simp [SAttempt.engine, ih2]⟩
    | false =>
      simp only [hop, Bool.false_eq_true, if_false]
      cases hrun : runEngine e with
      | ok r =>
        have hv : validate r = false := by
          simpa [engineFails, hrun] using he
        obtain ⟨ih1, ih2⟩ := ih (k+1)
          (updBk (updBk bks e (CircuitBreaker.is_open (timeAt k) (bks e)).2)
            e (CircuitBreaker.record_failure (timeAt k)
              (CircuitBreaker.is_open (timeAt k) (bks e)).2)) hrest
        simp only [hv, Bool.false_eq_true, if_false]
        exact ⟨ih1, by simp [SAttempt.engine, ih2]⟩
      | error msg =>
        obtain ⟨ih1, ih2⟩ := ih (k+1)
          (updBk (updBk bks e (CircuitBreaker.is_open (timeAt k) (bks e)).2)
            e (CircuitBreaker.record_failure (timeAt k)
              (CircuitBreaker.is_open (timeAt k) (bks e)).2)) hrest
        exact ⟨ih1, by simp [SAttempt.engine, ih2]⟩

/-- C1: when every strategy attempt of `make_resilient_request` fails
(exceptions included) the call returns — it does not raise — a
structured failure result whose attempt history names every ordered
strategy exactly once, with `strategies_tried` equal to their number and
an error message present; and when (within the wall-clock budget) every
engine attempt of `MultiEngineSearch.search` fails or is skipped by its
circuit breaker, the call returns a structured failure whose attempt
history carries one record per engine — tried or skipped — in priority
order, with `engines_tried` listing exactly those engines. -/
theorem exhaustion_returns_structured_failure
    (exec : String → EnhancedNetworkManager.ExecOutcome) (now : ℚ)
    (strategies : List (String × RequestStrategy))
    (runEngine : String → Except String (List String))
    (validate : List String → Bool) (start : ℚ) (timeAt : ℕ → ℚ)
    (timeout : ℚ) (engines : List String)
    (breakers : String → CircuitBreaker)
    (hA : ∀ s ∈ EnhancedNetworkManager.get_ordered_strategies now strategies,
      execFails exec s = true)
    (hT : ∀ k : ℕ, ¬ (timeAt k - start > timeout))
    (hB : ∀ e ∈ engines, engineFails runEngine validate e = true) :
    ((EnhancedNetworkManager.make_resilient_request exec now
        strategies).1.success = false ∧
      (EnhancedNetworkManager.make_resilient_request exec now
        strategies).1.attempts.map EnhancedNetworkManager.RAttempt.strategy =
        EnhancedNetworkManager.get_ordered_strategies now strategies ∧
      (EnhancedNetworkManager.make_resilient_request exec now
        strategies).1.strategies_tried =
        some (EnhancedNetworkManager.get_ordered_strategies now
          strategies).length ∧
      (EnhancedNetworkManager.make_resilient_request exec now
        strategies).1.error.isSome = true) ∧
    ((MultiEngineSearch.search runEngine validate start timeAt timeout
        engines breakers).1.success = false ∧
      (MultiEngineSearch.search runEngine validate start timeAt timeout
        engines breakers).1.attempts.map SAttempt.engine = engines ∧
      (MultiEngineSearch.search runEngine validate start timeAt timeout
        engines breakers).1.engines_tried = some engines ∧
      (MultiEngineSearch.search runEngine validate start timeAt timeout
        engines breakers).1.error.isSome = true) := by
  constructor
  · obtain ⟨h1, h2⟩ := mrrGo_allfail exec now
      (EnhancedNetworkManager.get_ordered_strategies now strategies)
      strategies none hA
    rcases hgo : EnhancedNetworkManager.mrrGo exec now
        (EnhancedNetworkManager.get_ordered_strategies now strategies)
        strategies none with ⟨recs, found, le2, st2⟩
    rw [hgo] at h1 h2
    simp only at h1 h2
    subst h1
    simp only [EnhancedNetworkManager.make_resilient_request, hgo]
    simp [h2]
  · obtain ⟨h1, h2⟩ := searchGo_allfail runEngine validate start timeAt
      timeout hT engines 0 breakers hB
    simp only [MultiEngineSearch.search, h1]
    simp [h2]

/-- C1, witness: the exhaustion theorem at a concrete instance — every
strategy raises, the search engines `searx` and `duckduckgo` both fail,
the clock never advances past the budget. -/
theorem exhaustion_returns_structured_failure_witness :
    ((EnhancedNetworkManager.make_resilient_request (fun _ => .exn "boom") 0
        initStrategies).1.success = false ∧
      (EnhancedNetworkManager.make_resilient_request (fun _ => .exn "boom") 0
        initStrategies).1.attempts.map
          EnhancedNetworkManager.RAttempt.strategy =
        EnhancedNetworkManager.get_ordered_strategies 0 initStrategies ∧
      (EnhancedNetworkManager.make_resilient_request (fun _ => .exn "boom") 0
        initStrategies).1.strategies_tried =
        some (EnhancedNetworkManager.get_ordered_strategies 0
          initStrategies).length ∧
      (EnhancedNetworkManager.make_resilient_request (fun _ => .exn "boom") 0
        initStrategies).1.error.isSome = true) ∧
    ((MultiEngineSearch.search (fun _ => .error "down") (fun _ => true) 0
        (fun _ => 0) 30 ["searx", "duckduckgo"]
        (fun _ => CircuitBreaker.init 3 30)).1.success = false ∧
      (MultiEngineSearch.search (fun _ => .error "down") (fun _ => true) 0
        (fun _ => 0) 30 ["searx", "duckduckgo"]
        (fun _ => CircuitBreaker.init 3 30)).1.attempts.map SAttempt.engine =
        ["searx", "duckduckgo"] ∧
      (MultiEngineSearch.search (fun _ => .error "down") (fun _ => true) 0
        (fun _ => 0) 30 ["searx", "duckduckgo"]
        (fun _ => CircuitBreaker.init 3 30)).1.engines_tried =
        some ["searx", "duckduckgo"] ∧
      (MultiEngineSearch.search (fun _ => .error "down") (fun _ => true) 0
        (fun _ => 0) 30 ["searx", "duckduckgo"]
        (fun _ => CircuitBreaker.init 3 30)).1.error.isSome = true) :=
  exhaustion_returns_structured_failure (fun _ => .exn "boom") 0
    initStrategies (fun _ => .error "down") (fun _ => true) 0 (fun _ => 0)
    30 ["searx", "duckduckgo"] (fun _ => CircuitBreaker.init 3 30)
    (fun _ _ => rfl) (fun _ => by norm_num) (fun _ _ => rfl)

/-! ## Claim C6 -/

/-- Auxiliary: inserting into a list permutes consing. -/
lemma insSorted_perm {α : Type} (le : α → α → Bool) (x : α) :
    ∀ l : List α, List.Perm (insSorted le x l) (x :: l) := by
  intro l
  induction l with
  | nil => exact List.Perm.refl _
  | cons y ys ih =>
    by_cases h : le x y
    · simp [insSorted, h]
    · simp only [insSorted, if_neg h]
      exact (ih.cons y).trans (List.Perm.swap x y ys)

/-- Auxiliary: the insertion sort permutes its input. -/
lemma sortByB_perm {α : Type} (le : α → α → Bool) :
    ∀ l : List α, List.Perm (sortByB le l) l := by
  intro l
  induction l with
  | nil => exact List.Perm.refl _
  | cons x xs ih =>
    exact (insSorted_perm le x (sortByB le xs)).trans (ih.cons x)

/-- The four registered strategies, in the insertion order of
`EnhancedNetworkManager.__init__`, with arbitrary per-strategy state. -/
def registeredStrategies (s1 s2 s3 s4 : RequestStrategy) :
    List (String × RequestStrategy) :=
  [ ("tor_primary", s1), ("tor_new_circuit", s2)
  , ("tor_bridge", s3), ("fallback_direct", s4) ]

/-- Python string comparisons of the registered names: descending
lexicographic order of the four names coincides with their insertion
order. -/
lemma pyStrLt_names :
    pyStrLt "tor_new_circuit" "tor_primary" = true ∧
    pyStrLt "tor_primary" "tor_new_circuit" = false ∧
    pyStrLt "tor_bridge" "tor_primary" = true ∧
    pyStrLt "tor_primary" "tor_bridge" = false ∧
    pyStrLt "tor_bridge" "tor_new_circuit" = true ∧
    pyStrLt "tor_new_circuit" "tor_bridge" = false ∧
    pyStrLt "fallback_direct" "tor_primary" = true ∧
    pyStrLt "tor_primary" "fallback_direct" = false ∧
    pyStrLt "fallback_direct" "tor_new_circuit" = true ∧
    pyStrLt "tor_new_circuit" "fallback_direct" = false ∧
    pyStrLt "fallback_direct" "tor_bridge" = true ∧
    pyStrLt "tor_bridge" "fallback_direct" = false :=
  ⟨rfl, rfl, rfl, rfl, rfl, rfl, rfl, rfl, rfl, rfl, rfl, rfl⟩

/-- C6: on the registered strategies — whatever their current rates and
recency — the ordering computed by `_get_ordered_strategies` equals the
spec's ordering (sort descending by score, ties broken by insertion
order), it contains no strategy twice, and it is a permutation of the
registered strategy names, so each strategy is attempted at most once
per call. -/
theorem strategy_order_matches_spec (now : ℚ) (s1 s2 s3 s4 : RequestStrategy) :
    EnhancedNetworkManager.get_ordered_strategies now
        (registeredStrategies s1 s2 s3 s4) =
      EnhancedNetworkManager.specOrderedStrategies now
        (registeredStrategies s1 s2 s3 s4) ∧
    (EnhancedNetworkManager.get_ordered_strategies now
        (registeredStrategies s1 s2 s3 s4)).Nodup ∧
    (EnhancedNetworkManager.get_ordered_strategies now
        (registeredStrategies s1 s2 s3 s4)).Perm
      ["tor_primary", "tor_new_circuit", "tor_bridge", "fallback_direct"] := by
  obtain ⟨p10, p01, p20, p02, p21, p12, p30, p03, p31, p13, p32, p23⟩ :=
    pyStrLt_names
  have hperm :
      (EnhancedNetworkManager.get_ordered_strategies now
        (registeredStrategies s1 s2 s3 s4)).Perm
      ["tor_primary", "tor_new_circuit", "tor_bridge", "fallback_direct"] := by
    have h := (sortByB_perm EnhancedNetworkManager.leLexB
      ((registeredStrategies s1 s2 s3 s4).map
        (fun p => (EnhancedNetworkManager.strategyScore now p.2, p.1)))).map
      Prod.snd
    simpa [EnhancedNetworkManager.get_ordered_strategies,
      registeredStrategies] using h
  refine ⟨?_, ?_, hperm⟩
  · simp only [EnhancedNetworkManager.get_ordered_strategies,
      EnhancedNetworkManager.specOrderedStrategies, registeredStrategies,
      withIdx, List.map_cons, List.map_nil, sortByB, insSorted,
      EnhancedNetworkManager.leLexB, EnhancedNetworkManager.leSpecB,
      p10, p01, p20, p02, p21, p12, p30, p03, p31, p13, p32, p23,
      Bool.and_true, Bool.and_false, Bool.or_false,
      Nat.reduceAdd, Nat.reduceLT, decide_True, decide_False]
    iterate 10
      all_goals
        first
          | rfl
          | split_ifs
          | simp only [insSorted,
              EnhancedNetworkManager.leLexB, EnhancedNetworkManager.leSpecB,
              p10, p01, p20, p02, p21, p12, p30, p03, p31, p13, p32, p23,
              Bool.and_true, Bool.and_false, Bool.or_false,
              Nat.reduceLT, decide_True, decide_False]
          | skip
    all_goals rfl
  · exact hperm.nodup_iff.2 (by decide)
